import Mathlib

/-!
Verification development for the propsd composition pipeline.

The definitions below are shallow embeddings of the JavaScript sources:

* `collectTransformables`, `sigOf`, `resolveOne`, `transform` embed
  `src/lib/transformers/tokend.js` (the full transformer: cache, the
  `generic`/`transit`/`kms` dispatch, null degradation).
* `iter`, `sourcesFromIndex`, `registerSources`, `loadSourcesFromIndex` embed
  `lib/plugin-manager.js` (`S3IndexParser`, `_loadSourcesFromIndex`,
  `_registerSources`, `_error`).  `registerStorage` is modelled from the spec
  because `lib/storage.js` is not part of the sources.
* `onServiceListChange` and `onHealthServiceChange` embed
  `lib/source/consul.js`.
* `s3Fetch` embeds `S3._fetch` from `lib/source/s3.js`.
* `conquesoRoute` embeds the route table of `lib/control/v1/conqueso.js`.

JavaScript idioms are embedded explicitly: objects are ordered association
lists, `Array#sort()` is lexicographic code-unit insertion sort, machine
arithmetic inside SHA-1 is `Nat` arithmetic mod `2 ^ 32`, promise rejection is
`Except.error`, and event emission is accumulated in explicit state records.
-/

namespace Propsd

/-- A JSON value tree: the recursive union of null, boolean, number, string,
sequence, and string-keyed mapping.  Mappings are ordered association lists,
matching JavaScript object key order. -/
inductive Json where
  | null : Json
  | bool (b : Bool) : Json
  | num (n : Int) : Json
  | str (s : String) : Json
  | arr (elements : List Json) : Json
  | obj (entries : List (String × Json)) : Json

abbrev Entries := List (String × Json)

/-- First binding for a key in an object, as JavaScript property access. -/
def lookupKey : Entries → String → Option Json
  | [], _ => none
  | (k, v) :: rest, key => if k = key then some v else lookupKey rest key

/-- JavaScript `Object.prototype.hasOwnProperty` on a modelled object. -/
def hasKey (kvs : Entries) (key : String) : Bool := (lookupKey kvs key).isSome

/-- JavaScript `Object.keys`. -/
def keyList (kvs : Entries) : List String := kvs.map Prod.fst

/-- Key-uniqueness of an association list, as holds for any JavaScript object. -/
def nodupKeysB : List String → Bool
  | [] => true
  | k :: rest => !(rest.contains k) && nodupKeysB rest

/-- Lexicographic code-unit comparison of character lists: the comparison the
default JavaScript `Array#sort()` applies to strings. -/
def charListLe : List Char → List Char → Bool
  | [], _ => true
  | _ :: _, [] => false
  | a :: as, b :: bs =>
    if a.toNat < b.toNat then true
    else if b.toNat < a.toNat then false
    else charListLe as bs

def strLe (a b : String) : Bool := charListLe a.toList b.toList

/-- The order relation used to model the default JavaScript string sort. -/
def strLeRel (a b : String) : Prop := strLe a b = true

instance : DecidableRel strLeRel := fun a b => by
  unfold strLeRel
  infer_instance

/-- JavaScript `Array#sort()` on an array of strings (ascending code-unit
order; duplicates are kept). -/
def jsSortStrings (l : List String) : List String := List.insertionSort strLeRel l

/-! SHA-1 (as produced by node's `crypto.createHash('sha1')`), over byte
lists, with 32-bit words represented as `Nat` reduced mod `2 ^ 32`. -/

def w32 (n : Nat) : Nat := n % 4294967296

def rotl (k n : Nat) : Nat := w32 (n * 2 ^ k + n / 2 ^ (32 - k))

def shaF (t b c d : Nat) : Nat :=
  if t < 20 then Nat.lor (Nat.land b c) (Nat.land (w32 (Nat.xor b 4294967295)) d)
  else if t < 40 then Nat.xor (Nat.xor b c) d
  else if t < 60 then Nat.lor (Nat.lor (Nat.land b c) (Nat.land b d)) (Nat.land c d)
  else Nat.xor (Nat.xor b c) d

def shaK (t : Nat) : Nat :=
  if t < 20 then 1518500249
  else if t < 40 then 1859775393
  else if t < 60 then 2400959708
  else 3395469782

def toBE32 : List Nat → List Nat
  | b0 :: b1 :: b2 :: b3 :: rest => (((b0 * 256 + b1) * 256 + b2) * 256 + b3) :: toBE32 rest
  | _ => []

def extendW (w : List Nat) : Nat → List Nat
  | 0 => w
  | Nat.succ t =>
    let w' := extendW w t
    let i := w'.length
    w' ++ [rotl 1 (Nat.xor (Nat.xor (w'.getD (i - 3) 0) (w'.getD (i - 8) 0))
      (Nat.xor (w'.getD (i - 14) 0) (w'.getD (i - 16) 0)))]

def shaRounds : Nat → List Nat → (Nat × Nat × Nat × Nat × Nat) → (Nat × Nat × Nat × Nat × Nat)
  | _, [], st => st
  | t, wt :: ws, (a, b, c, d, e) =>
    let temp := w32 (rotl 5 a + shaF t b c d + e + shaK t + wt)
    shaRounds (t + 1) ws (temp, a, rotl 30 b, c, d)

def shaBlock (h : Nat × Nat × Nat × Nat × Nat) (block : List Nat) : Nat × Nat × Nat × Nat × Nat :=
  let w := extendW (toBE32 block) 64
  let (h0, h1, h2, h3, h4) := h
  let (a, b, c, d, e) := shaRounds 0 w (h0, h1, h2, h3, h4)
  (w32 (h0 + a), w32 (h1 + b), w32 (h2 + c), w32 (h3 + d), w32 (h4 + e))

def chunksAux : Nat → List Nat → List (List Nat)
  | 0, _ => []
  | _, [] => []
  | Nat.succ fuel, a :: rest => (a :: rest).take 64 :: chunksAux fuel ((a :: rest).drop 64)

def chunks64 (l : List Nat) : List (List Nat) := chunksAux l.length l

def shaPad (msg : List Nat) : List Nat :=
  let len := msg.length
  let zeros := (119 - len % 64) % 64
  let bitLen := len * 8
  msg ++ [128] ++ List.replicate zeros 0 ++
    [w32 (bitLen / 2 ^ 56) % 256, bitLen / 2 ^ 48 % 256, bitLen / 2 ^ 40 % 256,
     bitLen / 2 ^ 32 % 256, bitLen / 2 ^ 24 % 256, bitLen / 2 ^ 16 % 256,
     bitLen / 2 ^ 8 % 256, bitLen % 256]

def be32Bytes (n : Nat) : List Nat :=
  [n / 2 ^ 24 % 256, n / 2 ^ 16 % 256, n / 2 ^ 8 % 256, n % 256]

def sha1 (msg : List Nat) : List Nat :=
  let blocks := chunks64 (shaPad msg)
  let (h0, h1, h2, h3, h4) :=
    blocks.foldl shaBlock (1732584193, 4023233417, 2562383102, 271733878, 3285377520)
  be32Bytes h0 ++ be32Bytes h1 ++ be32Bytes h2 ++ be32Bytes h3 ++ be32Bytes h4

/-! Base-64 digest encoding, as `hash.digest('base64')`. -/

def b64Chars : List Char :=
  "ABCDEFGHIJKLMNOPQRSTUVWXYZabcdefghijklmnopqrstuvwxyz0123456789+/".toList

def b64Quad (b0 b1 b2 : Nat) : List Char :=
  [b64Chars.getD (b0 / 4) 'A',
   b64Chars.getD ((b0 % 4) * 16 + b1 / 16) 'A',
   b64Chars.getD ((b1 % 16) * 4 + b2 / 64) 'A',
   b64Chars.getD (b2 % 64) 'A']

def b64Body : List Nat → List Char
  | b0 :: b1 :: b2 :: rest => b64Quad b0 b1 b2 ++ b64Body rest
  | [b0, b1] => (b64Quad b0 b1 0).take 3 ++ ['=']
  | [b0] => (b64Quad b0 0 0).take 2 ++ ['=', '=']
  | [] => []

def base64 (bytes : List Nat) : String := String.mk (b64Body bytes)

/-- UTF-8 bytes of a string; the inputs hashed by the transformer are ASCII,
where code points and bytes coincide. -/
def strBytes (s : String) : List Nat := s.toList.map Char.toNat

/-! `JSON.stringify` (no spacing argument) for the modelled trees. -/

def escChar (c : Char) : List Char :=
  if c = '"' then ['\\', '"'] else if c = '\\' then ['\\', '\\'] else [c]

def quoteStr (s : String) : String :=
  "\"" ++ String.mk ((s.toList.map escChar).flatten) ++ "\""

mutual

def stringify : Json → String
  | .null => "null"
  | .bool true => "true"
  | .bool false => "false"
  | .num n => toString n
  | .str s => quoteStr s
  | .arr xs => "[" ++ stringifyList xs ++ "]"
  | .obj kvs => "\x7b" ++ stringifyEntries kvs ++ "\x7d"

def stringifyList : List Json → String
  | [] => ""
  | [x] => stringify x
  | x :: y :: rest => stringify x ++ "," ++ stringifyList (y :: rest)

def stringifyEntries : Entries → String
  | [] => ""
  | [(k, v)] => quoteStr k ++ ":" ++ stringify v
  | (k, v) :: kv :: rest => quoteStr k ++ ":" ++ stringify v ++ "," ++ stringifyEntries (kv :: rest)

end

/-! Embedding of `src/lib/transformers/tokend.js` (`collectTransformables`
and `TokendTransformer.transform`). -/

/-- One collected transformable: the entries of the `$tokend` object together
with the injected key path (`Immutable.OrderedMap(properties.$tokend)`
followed by `.set('keyPath', keyPath)`). -/
structure TInfo where
  spec : Entries
  keyPath : List String

mutual

/-- Walk a properties object looking for transformable values: stops at any
plain object whose only key is `$tokend`, does not walk non-objects (arrays
included, as `isPlainObject` rejects them). -/
def collectTransformables : Json → List String → List TInfo
  | .obj kvs, keyPath =>
    if keyList kvs = ["$tokend"] then
      match lookupKey kvs "$tokend" with
      | some (.obj spec) => [⟨spec, keyPath⟩]
      | _ => [⟨[], keyPath⟩]
    else
      collectFromEntries kvs keyPath
  | _, _ => []

def collectFromEntries : Entries → List String → List TInfo
  | [], _ => []
  | (key, value) :: rest, keyPath =>
    (match value with
     | .obj _ => collectTransformables value (keyPath ++ [key])
     | _ => []) ++ collectFromEntries rest keyPath

end

/-- `Immutable.Map.set`: replace the binding in place when the key exists,
append it otherwise. -/
def setEntry : Entries → String → Json → Entries
  | [], k, v => [(k, v)]
  | (k', v') :: rest, k, v =>
    if k' = k then (k, v) :: rest else (k', v') :: setEntry rest k v

/-- The ordered map the transformer hashes: the sentinel's spec with the
`keyPath` entry injected (`info.toJS()`). -/
def infoOmap (info : TInfo) : Entries :=
  setEntry info.spec "keyPath" (.arr (info.keyPath.map Json.str))

/-- The transformer's `info.get(...)`. -/
def infoGet (info : TInfo) : String → Option Json :=
  lookupKey (infoOmap info)

/-- The cache signature of a collected sentinel:
`crypto.createHash('sha1').update(JSON.stringify(info.toJS())).digest('base64')`. -/
def sigOf (info : TInfo) : String :=
  base64 (sha1 (strBytes (stringify (.obj (infoOmap info)))))

/-- A request the transformer can place against the secret broker
(`TokendClient#get` / `TokendClient#post`).  Payload values are `Option`
because `info.get(...)` may be undefined. -/
inductive BrokerRequest where
  | get (resource : Option Json) : BrokerRequest
  | post (resource : Option Json) (payload : List (String × Option Json)) : BrokerRequest

/-- A broker behavior: each request either resolves with parsed JSON data or
rejects (connection errors, HTTP errors and non-JSON bodies all surface as
client-level rejections). -/
def Broker := BrokerRequest → Except String Json

/-- JavaScript truthiness of a possibly-undefined value. -/
def jsTruthy : Option Json → Bool
  | none => false
  | some .null => false
  | some (.bool b) => b
  | some (.num n) => n ≠ 0
  | some (.str s) => s ≠ ""
  | some (.arr _) => true
  | some (.obj _) => true

/-- The `kms` branch condition `info.get(k) && info.get(k) !== ''`. -/
def kmsOptCond (v : Option Json) : Bool :=
  jsTruthy v && (match v with | some (.str "") => false | _ => true)

/-- The `kms` payload: `{key: 'KMS', ciphertext, region?, datakey?}`. -/
def kmsPayload (info : TInfo) : List (String × Option Json) :=
  [("key", some (.str "KMS")), ("ciphertext", infoGet info "ciphertext")] ++
    (if kmsOptCond (infoGet info "region") then [("region", infoGet info "region")] else []) ++
    (if kmsOptCond (infoGet info "datakey") then [("datakey", infoGet info "datakey")] else [])

/-- Outcome of resolving one collected sentinel: the value substituted at its
key path, the cache entry recorded (if any), and the number of broker calls
made. -/
structure ResolveOut where
  value : Json
  cacheAdd : Option (String × Json)
  calls : Nat

/-- Reading `.plaintext` off a cached or fresh broker response object.  The
code only stores or substitutes responses after `hasOwnProperty('plaintext')`
succeeded, so the `.null` defaults are never observable. -/
def plaintextOf : Json → Json
  | .obj kvs => (lookupKey kvs "plaintext").getD .null
  | _ => .null

/-- Unpacking one settled broker response, as the `.then(...).catch(...)`
chain: rejection and a missing `plaintext` key substitute `null` and cache
nothing; otherwise the data is cached under the signature and its `plaintext`
substituted.  `hasOwnProperty` on a non-object response throws inside `then`
and is caught by the same `catch`. -/
def unpackResponse (signature : String) (resp : Except String Json) : ResolveOut :=
  match resp with
  | .error _ => ⟨.null, none, 1⟩
  | .ok data =>
    match data with
    | .obj kvs =>
      if hasKey kvs "plaintext" then ⟨plaintextOf data, some (signature, data), 1⟩
      else ⟨.null, none, 1⟩
    | _ => ⟨.null, none, 1⟩

/-- The `switch (info.get('type'))` dispatch: `generic` issues a GET of the
resource, `transit` a POST of `{key, ciphertext}`, `kms` a POST of the kms
payload; any other type places no request (the `default` arm only warns). -/
def brokerRequestOf (info : TInfo) : Option BrokerRequest :=
  match infoGet info "type" with
  | some (.str "generic") => some (.get (infoGet info "resource"))
  | some (.str "transit") => some (.post (infoGet info "resource")
      [("key", infoGet info "key"), ("ciphertext", infoGet info "ciphertext")])
  | some (.str "kms") => some (.post (infoGet info "resource") (kmsPayload info))
  | _ => none

/-- Resolving one collected sentinel against the cache and the broker:
cache hit returns the cached plaintext with no broker call; otherwise the
spec's `type` dispatches the request, and an unrecognized type substitutes
`null` with only a warning. -/
def resolveOne (b : Broker) (cache : Entries) (info : TInfo) : ResolveOut :=
  let signature := sigOf info
  if hasKey cache signature then
    ⟨(match lookupKey cache signature with
      | some data => plaintextOf data
      | none => .null), none, 0⟩
  else
    match brokerRequestOf info with
    | some req => unpackResponse signature (b req)
    | none => ⟨.null, none, 0⟩

/-- `Immutable.Map().setIn(keyPath, value)`: a nested single-key object chain;
with an empty path the value itself. -/
def setIn : List String → Json → Json
  | [], v => v
  | k :: rest, v => .obj [(k, setIn rest v)]

mutual

/-- `Immutable`'s `mergeDeep`: two maps merge recursively key by key with the
right map's new keys appended; any other collision is replaced by the right
value.  (List collisions never arise in the overlay fold: the collected key
paths are pairwise divergent.) -/
def mergeDeep : Json → Json → Json
  | .obj a, .obj b => .obj (mergeInto a b ++ b.filter (fun kv => !(hasKey a kv.1)))
  | _, b => b

def mergeInto : Entries → Entries → Entries
  | [], _ => []
  | (k, va) :: rest, b =>
    (k, match lookupKey b k with
        | some vb => mergeDeep va vb
        | none => va) :: mergeInto rest b

end

/-- Reading a value at a key path of a modelled tree (`getIn`). -/
def lookupPath : Json → List String → Option Json
  | v, [] => some v
  | .obj kvs, k :: rest =>
    match lookupKey kvs k with
    | some v => lookupPath v rest
    | none => none
  | _, _ :: _ => none

/-- Result of one `transform(properties)` call: the resolved overlay, the
cache afterwards, and how many broker requests were made. -/
structure TransformOut where
  overlay : Json
  cache : Entries
  calls : Nat

/-- `TokendTransformer.transform`: collect the sentinels, resolve each against
the initial cache (all cache probes happen synchronously before any response
settles), deep-merge the per-sentinel overlays in collection order, and record
the responses that carried a `plaintext` key in the cache. -/
def transform (b : Broker) (cache : Entries) (properties : Json) : TransformOut :=
  let outs := (collectTransformables properties []).map
    (fun info => (info.keyPath, resolveOne b cache info))
  { overlay := outs.foldl (fun acc x => mergeDeep acc (setIn x.1 x.2.value)) (.obj [])
    cache := cache ++ outs.filterMap (fun x => x.2.cacheAdd)
    calls := (outs.map (fun x => x.2.calls)).sum }

/-- The failure condition of the claims: the sentinel misses the cache and
either the broker rejects (request error or non-JSON body), the response
carries no `plaintext` key, or the sentinel's type is unrecognized. -/
def resolutionFails (b : Broker) (cache : Entries) (info : TInfo) : Bool :=
  !(hasKey cache (sigOf info)) &&
    (match brokerRequestOf info with
     | some req => reqFails (b req)
     | none => true)
where
  reqFails : Except String Json → Bool
    | .error _ => true
    | .ok (.obj kvs) => !(hasKey kvs "plaintext")
    | .ok _ => true

mutual

/-- Well-formedness a JavaScript property tree has by construction: object
keys are unique and every sentinel's `$tokend` value is an object (the shape
the data model prescribes; `Immutable.OrderedMap` requires it). -/
def wfTree : Json → Bool
  | .obj kvs =>
    (if keyList kvs = ["$tokend"] then
      match lookupKey kvs "$tokend" with
      | some (.obj _) => true
      | _ => false
     else true) && nodupKeysB (keyList kvs) && wfEntries kvs
  | _ => true

def wfEntries : Entries → Bool
  | [] => true
  | (_, v) :: rest => wfTree v && wfEntries rest

end

mutual

/-- Whether a tree contains, anywhere (arrays included), a mapping whose sole
key is `$tokend`. -/
def hasSentinel : Json → Bool
  | .obj kvs => keyList kvs = ["$tokend"] || hasSentinelEntries kvs
  | .arr xs => hasSentinelList xs
  | _ => false

def hasSentinelEntries : Entries → Bool
  | [] => false
  | (_, v) :: rest => hasSentinel v || hasSentinelEntries rest

def hasSentinelList : List Json → Bool
  | [] => false
  | v :: rest => hasSentinel v || hasSentinelList rest

end

/-- Two key paths diverge when neither is a prefix of the other: they agree on
a common prefix and then continue with different keys. -/
def diverges : List String → List String → Bool
  | a :: as, b :: bs => if a = b then diverges as bs else true
  | _, _ => false

end Propsd

namespace Propsd

/-! Embedding of `lib/plugin-manager.js`. -/

mutual

/-- JavaScript `String(value)` as used inside template literals (arrays join
their elements with commas, null elements joining as the empty string). -/
def jsStringOf : Json → String
  | .null => "null"
  | .bool true => "true"
  | .bool false => "false"
  | .num n => toString n
  | .str s => s
  | .arr xs => jsStringJoin xs
  | .obj _ => "[object Object]"

/-- `Array.prototype.join(',')` with `String(...)` element conversion. -/
def jsStringJoin : List Json → String
  | [] => ""
  | [x] => (match x with | .null => "" | _ => jsStringOf x)
  | x :: y :: rest =>
    (match x with | .null => "" | _ => jsStringOf x) ++ "," ++ jsStringJoin (y :: rest)

end

/-- JavaScript `String.prototype.toLowerCase()` on the ASCII strings the
source `type` field carries. -/
def jsToLower (s : String) : String :=
  String.mk (s.toList.map (fun c =>
    if 65 ≤ c.toNat ∧ c.toNat ≤ 90 then Char.ofNat (c.toNat + 32) else c))

/-- A source registered in Storage, identified by its `(type, name)` pair. -/
structure RegisteredSource where
  type : String
  name : String
  deriving DecidableEq

/-- The PluginManager state the claims observe: its `ok` flag, the `error`
events it emitted, Storage's source list, how many sources it shut down, and
how many retry timers it installed. -/
structure PMState where
  ok : Bool
  errors : List String
  storage : List RegisteredSource
  shutdowns : Nat
  retryTimers : Nat

/-- `PluginManager._error`: log, set `ok = false`, and emit the error only
when `error` listeners are attached (`hasListeners`). -/
def pmError (hasListeners : Bool) (st : PMState) (msg : String) : PMState :=
  { st with ok := false
            errors := if hasListeners then st.errors ++ [msg] else st.errors }

mutual

/-- The plugin manager's `iter`: recursively walk an object applying the
callback to every non-object value.  `typeof v === 'object'` also holds for
`null` (walked to an empty object) and for arrays (walked with their index
strings as keys, the `TODO: No handling for arrays` in the source). -/
def iter (coerce : Json → Except String Json) : Json → Except String Json
  | .obj kvs => do pure (.obj (← iterEntries coerce kvs))
  | .arr xs => do pure (.obj (← iterIndexed coerce 0 xs))
  | _ => pure (.obj [])

def iterEntries (coerce : Json → Except String Json) : Entries → Except String Entries
  | [] => pure []
  | (k, v) :: rest => do
    let value ← (match v with
      | .obj _ => iter coerce v
      | .arr _ => iter coerce v
      | .null => iter coerce v
      | _ => coerce v)
    let r ← iterEntries coerce rest
    pure ((k, value) :: r)

def iterIndexed (coerce : Json → Except String Json) (i : Nat) : List Json → Except String Entries
  | [] => pure []
  | v :: rest => do
    let value ← (match v with
      | .obj _ => iter coerce v
      | .arr _ => iter coerce v
      | .null => iter coerce v
      | _ => coerce v)
    let r ← iterIndexed coerce (i + 1) rest
    pure ((toString i, value) :: r)

end

def iterList (coerce : Json → Except String Json) : List Json → Except String (List Json)
  | [] => pure []
  | el :: rest => do
    let s ← iter coerce el
    let r ← iterList coerce rest
    pure (s :: r)

/-- The interpolation step of `_loadSourcesFromIndex`: map `iter` with
`StringTemplate.coerce(v, metadata.properties)` over `index.properties`.  The
coercion is passed in abstractly (`lib/string-template.js` is outside the
sources); a thrown `UNRESOLVED_TEMPLATE` is its `Except.error`.  When
`index.properties` is not an array (for example still undefined), `.map`
itself throws, caught by the same `try`. -/
def sourcesFromIndex (coerce : Json → Except String Json) :
    Json → Except String (List Json)
  | .arr els => iterList coerce els
  | _ => .error "TypeError: this.index.properties.map is not a function"

/-- Modelled from the spec: `Storage.register` appends a source and rejects a
duplicate `(type, name)` (`lib/storage.js` is not among the sources; §4.7 of
the spec specifies append + duplicate rejection). -/
def registerStorage (storage : List RegisteredSource) (s : RegisteredSource) :
    List RegisteredSource :=
  if storage.any (fun x => x.type = s.type ∧ x.name = s.name) then storage
  else storage ++ [s]

/-- The `S3` source an `s3` spec instantiates: its `bucket` is overridden by
the index bucket (`Object.assign(source.parameters, {bucket: this.index.bucket})`)
and its name defaults to `s3-<bucket>-<path>` when the parameters carry no
`name` (the template-literal string conversions are `jsStringOf`). -/
def s3InstanceOf (bucket : String) (spec : Json) : RegisteredSource :=
  match spec with
  | .obj kvs =>
    match lookupKey kvs "parameters" with
    | some (.obj params) =>
      ⟨"s3", match lookupKey params "name" with
        | some v => jsStringOf v
        | none => "s3-" ++ bucket ++ "-" ++ jsStringOf ((lookupKey params "path").getD .null)⟩
    | _ => ⟨"s3", ""⟩
  | _ => ⟨"s3", ""⟩

/-- `_registerSources` on a single spec.  An `s3` spec instantiates an `S3`
source and registers it; any other type only reports
`Source type <t> not implemented` through `_error` and registers nothing.
`Except.error` models the uncaught JavaScript throws (a spec without a string
`type`, an `s3` spec without a `path`). -/
def registerOne (hasListeners : Bool) (bucket : String) (st : PMState) (spec : Json) :
    Except String PMState :=
  match spec with
  | .obj kvs =>
    match lookupKey kvs "type" with
    | some (.str t) =>
      if jsToLower t = "s3" then
        match lookupKey kvs "parameters" with
        | some (.obj params) =>
          if hasKey params "path" then
            .ok { st with storage := registerStorage st.storage (s3InstanceOf bucket spec) }
          else .error "Bucket or path not supplied"
        | _ => .error "TypeError: cannot convert undefined to object"
      else .ok (pmError hasListeners st ("Source type " ++ t ++ " not implemented"))
    | _ => .error "TypeError: source.type.toLowerCase is not a function"
  | _ => .error "TypeError: cannot read property type"

/-- Whether a spec takes `registerOne`'s `s3` registration path: string type
lowering to `s3`, object parameters carrying a `path`. -/
def wfS3Spec (spec : Json) : Bool :=
  match spec with
  | .obj kvs =>
    (match lookupKey kvs "type" with
     | some (.str t) => jsToLower t = "s3"
     | _ => false) &&
    (match lookupKey kvs "parameters" with
     | some (.obj params) => hasKey params "path"
     | _ => false)
  | _ => false

def allWfS3 : List Json → Bool
  | [] => true
  | spec :: rest => wfS3Spec spec && allWfS3 rest

/-- The storage contents after registering a list of `s3` specs. -/
def s3Fold (bucket : String) (storage : List RegisteredSource) : List Json → List RegisteredSource
  | [] => storage
  | spec :: rest => s3Fold bucket (registerStorage storage (s3InstanceOf bucket spec)) rest

/-- The key-uniqueness invariant on Storage's source list. -/
def KeysDistinct (l : List RegisteredSource) : Prop :=
  l.Pairwise (fun a b => ¬(a.type = b.type ∧ a.name = b.name))

/-- `_registerSources` over the interpolated spec list, in order (a throw
inside the `forEach` propagates and stops iteration). -/
def registerSources (hasListeners : Bool) (bucket : String) (st : PMState) :
    List Json → Except String PMState
  | [] => .ok st
  | spec :: rest =>
    match registerOne hasListeners bucket st spec with
    | .ok st' => registerSources hasListeners bucket st' rest
    | .error e => .error e

/-- `_loadSourcesFromIndex` (the shared `reloadSources` handler): interpolate
the index under `try`; on a throw run `_error` and return (no source touched,
no timer installed); otherwise set `ok = true`, then diff-free register every
interpolated spec. -/
def loadSourcesFromIndex (hasListeners : Bool) (bucket : String)
    (coerce : Json → Except String Json) (indexProperties : Json) (st : PMState) :
    Except String PMState :=
  match sourcesFromIndex coerce indexProperties with
  | .error e => .ok (pmError hasListeners st e)
  | .ok specs => registerSources hasListeners bucket { st with ok := true } specs

/-! Embedding of `lib/source/consul.js`. -/

/-- One entry of a health/service response: the optional `Service.Address`
and `Node.Address` fields (the outer `Option` is a missing `Service` / `Node`
object, the inner one a missing `Address`). -/
structure HealthEntry where
  serviceAddress : Option (Option String)
  nodeAddress : Option (Option String)
  deriving DecidableEq

/-- The Consul plugin state the claims observe: the `properties` mapping
(name to its `addresses` array), the registered health watcher names, the
watchers that were `end()`ed, and the `_okay` flag. -/
structure ConsulState where
  properties : List (String × List String)
  watchers : List String
  ended : List String
  okay : Bool

/-- The address one health entry contributes: `Service.Address` when the
`Service` object and its `Address` are truthy, else `Node.Address` under the
same condition, else nothing. -/
def entryAddress (e : HealthEntry) : Option String :=
  match e.serviceAddress with
  | some (some a) =>
    if a ≠ "" then some a
    else (match e.nodeAddress with
          | some (some n) => if n ≠ "" then some n else none
          | _ => none)
  | _ =>
    match e.nodeAddress with
    | some (some n) => if n ≠ "" then some n else none
    | _ => none

/-- In-place update or append of a mapping key, as assignment to a JavaScript
object property. -/
def upsert : List (String × List String) → String → List String → List (String × List String)
  | [], k, v => [(k, v)]
  | (k', v') :: rest, k, v =>
    if k' = k then (k, v) :: rest else (k', v') :: upsert rest k v

/-- JavaScript `delete obj[k]` (object keys are unique, so dropping every
binding of the key coincides with deleting its single binding). -/
def removeKey (props : List (String × List String)) (k : String) : List (String × List String) :=
  props.filter (fun kv => kv.1 ≠ k)

def lookupName : List (String × List String) → String → Option (List String)
  | [], _ => none
  | (k', v') :: rest, k => if k' = k then some v' else lookupName rest k

/-- `Consul._onHealthServiceChange`: non-empty data records the sorted
collected addresses under the watcher's name; empty data ends and
unregisters the watcher and deletes the property. -/
def onHealthServiceChange (st : ConsulState) (name : String) (data : List HealthEntry) :
    ConsulState :=
  if data.length > 0 then
    { st with properties := upsert st.properties name (jsSortStrings (data.filterMap entryAddress))
              okay := true }
  else
    { st with properties := removeKey st.properties name
              watchers := st.watchers.filter (fun n => n ≠ name)
              ended := if st.watchers.contains name then st.ended ++ [name] else st.ended
              okay := true }

/-- The watcher names `_onServiceListChange` derives from the service list
mapping: one `service-tag` name per tag, or the bare service name when its
tag list is empty. -/
def derivedNames : List (String × List String) → List String
  | [] => []
  | (service, tags) :: rest =>
    (match tags with
     | [] => [service]
     | _ => tags.map (fun tag => service ++ "-" ++ tag)) ++ derivedNames rest

/-- `_registerHealthWatcher` under the JavaScript object that backs
`_healthWatchers`: assigning an existing key overwrites its value and leaves
the key set unchanged. -/
def regWatcher (ws : List String) (n : String) : List String :=
  if ws.contains n then ws else ws ++ [n]

/-- `Consul._onServiceListChange`: derive the watcher names, keep only those
without an existing watcher (`_hasHealthWatcher`), and register each; no
watcher is ever removed here. -/
def onServiceListChange (st : ConsulState) (data : List (String × List String)) :
    ConsulState :=
  let newWatchers := (derivedNames data).filter (fun n => !(st.watchers.contains n))
  { st with watchers := newWatchers.foldl regWatcher st.watchers
            okay := true }

/-! Embedding of `S3._fetch` from `lib/source/s3.js`. -/

/-- The callback outcome of one `getObject` call against the object store. -/
inductive AwsResult where
  | failure (code : String) : AwsResult
  | success (etag : String) (body : String) : AwsResult

/-- The request `_fetch` issues: a conditional GET carrying the last known
etag as `IfNoneMatch`. -/
structure S3Request where
  bucket : String
  key : String
  ifNoneMatch : Option String
  deriving DecidableEq

def s3FetchRequest (bucket path : String) (etag : Option String) : S3Request :=
  ⟨bucket, path, etag⟩

/-- What `_fetch` reports to the `Source` polling loop. -/
inductive FetchResult where
  | noUpdate : FetchResult
  | noExist : FetchResult
  | fetchError (code : String) : FetchResult
  | fetched (body : String) : FetchResult
  deriving DecidableEq

/-- `S3._fetch`'s classification of one response, together with the stored
etag afterwards: `NotModified` is the unchanged path, `NoSuchKey` maps to
not-found, any other error is reported as a fetch error, and success records
the new etag and passes the body on. -/
def s3Fetch (etag : Option String) (r : AwsResult) : Option String × FetchResult :=
  match r with
  | .failure code =>
    if code = "NotModified" then (etag, .noUpdate)
    else if code = "NoSuchKey" then (etag, .noExist)
    else (etag, .fetchError code)
  | .success newEtag body => (some newEtag, .fetched body)

/-! Embedding of `lib/control/v1/conqueso.js`. -/

inductive HttpMethod where
  | GET | HEAD | POST | PUT | OPTIONS | DELETE | TRACE | PATCH
  deriving DecidableEq

/-- An HTTP response of the conqueso route: status, optional `Allow` header,
optional body. -/
structure ConquesoResponse where
  status : Nat
  allow : Option String
  body : Option String
  deriving DecidableEq

def conquesoAllowedMethods : String := "GET,POST,PUT,OPTIONS"

/-- The `/v1/conqueso*` route table: GET serves the flattened properties,
HEAD is explicitly rejected, POST and PUT reply 200 with an empty body,
OPTIONS replies 200 with the `Allow` header, and everything else falls to
`methodNotAllowed` (405 plus `Allow`). -/
def conquesoRoute (properties : String) : HttpMethod → ConquesoResponse
  | .GET => ⟨200, none, some properties⟩
  | .HEAD => ⟨405, some conquesoAllowedMethods, none⟩
  | .POST => ⟨200, none, none⟩
  | .PUT => ⟨200, none, none⟩
  | .OPTIONS => ⟨200, some conquesoAllowedMethods, none⟩
  | _ => ⟨405, some conquesoAllowedMethods, none⟩

/-! Order-theoretic facts about the modelled JavaScript string comparison,
making Mathlib's insertion-sort lemmas available for `jsSortStrings`. -/

theorem charListLe_total : ∀ a b : List Char, charListLe a b = true ∨ charListLe b a = true
  | [], _ => Or.inl rfl
  | _ :: _, [] => Or.inr rfl
  | a :: as, b :: bs => by
    rcases Nat.lt_trichotomy a.toNat b.toNat with h | h | h
    · exact Or.inl (by simp [charListLe, h])
    · rcases charListLe_total as bs with ih | ih
      · exact Or.inl (by simp [charListLe, h, ih])
      · exact Or.inr (by simp [charListLe, h.symm, ih])
    · exact Or.inr (by simp [charListLe, h])

theorem charListLe_trans :
    ∀ a b c : List Char, charListLe a b = true → charListLe b c = true →
      charListLe a c = true
  | [], _, _, _, _ => rfl
  | _ :: _, [], _, h1, _ => by simp [charListLe] at h1
  | _ :: _, _ :: _, [], _, h2 => by simp [charListLe] at h2
  | a :: as, b :: bs, c :: cs, h1, h2 => by
    simp only [charListLe] at h1 h2 ⊢
    split_ifs at h1 h2 ⊢ with hab hba hbc hcb hac hca <;> try rfl
    all_goals try omega
    all_goals {
      have hab' : a.toNat = b.toNat := by omega
      have hbc' : b.toNat = c.toNat := by omega
      first
      | omega
      | exact charListLe_trans as bs cs h1 h2 }

instance : IsTotal String strLeRel :=
  ⟨fun a b => charListLe_total a.toList b.toList⟩

instance : IsTrans String strLeRel :=
  ⟨fun a b c h1 h2 => charListLe_trans a.toList b.toList c.toList h1 h2⟩

/-- C8: one `S3._fetch` with the last known etag issues a conditional GET
carrying it as `IfNoneMatch`; a `NotModified` error is the unchanged path, a
`NoSuchKey` error maps to not-found rather than error, any other error is
reported as a fetch error, and success records the new etag and returns the
body. -/
theorem s3_fetch_classification (bucket path : String) (etag : Option String)
    (code : String) (newEtag body : String)
    (h1 : code ≠ "NotModified") (h2 : code ≠ "NoSuchKey") :
    (s3FetchRequest bucket path etag).ifNoneMatch = etag ∧
    s3Fetch etag (.failure "NotModified") = (etag, .noUpdate) ∧
    s3Fetch etag (.failure "NoSuchKey") = (etag, .noExist) ∧
    s3Fetch etag (.failure code) = (etag, .fetchError code) ∧
    s3Fetch etag (.success newEtag body) = (some newEtag, .fetched body) := by
  refine ⟨rfl, rfl, rfl, ?_, rfl⟩
  simp [s3Fetch, h1, h2]

theorem s3_fetch_classification_witness :
    ("AccessDenied" : String) ≠ "NotModified" ∧ ("AccessDenied" : String) ≠ "NoSuchKey" ∧
    ((s3FetchRequest "bucket" "index.json" (some "etag0")).ifNoneMatch = some "etag0" ∧
     s3Fetch (some "etag0") (.failure "NotModified") = (some "etag0", .noUpdate) ∧
     s3Fetch (some "etag0") (.failure "NoSuchKey") = (some "etag0", .noExist) ∧
     s3Fetch (some "etag0") (.failure "AccessDenied") = (some "etag0", .fetchError "AccessDenied") ∧
     s3Fetch (some "etag0") (.success "etag1" "body") = (some "etag1", .fetched "body")) :=
  ⟨by decide, by decide,
   s3_fetch_classification "bucket" "index.json" (some "etag0") "AccessDenied" "etag1" "body"
     (by decide) (by decide)⟩

/-- C9 counterexample: a POST to `/v1/conqueso*` is answered with status 200
and no `Allow` header, not with 405. -/
theorem conqueso_post_is_200 :
    (conquesoRoute "a.b=1" .POST).status = 200 ∧
    (conquesoRoute "a.b=1" .POST).allow = none ∧
    (200 : Nat) ≠ 405 := by
  exact ⟨rfl, rfl, by decide⟩

/-- C9 amended: on `/v1/conqueso*`, POST and PUT answer 200 with no `Allow`
header, OPTIONS answers 200 with `Allow`, and every other non-GET method
(HEAD, DELETE, TRACE, PATCH) answers 405 with the `Allow` header. -/
theorem conqueso_method_table (properties : String) (m : HttpMethod) :
    (m = .POST ∨ m = .PUT → conquesoRoute properties m = ⟨200, none, none⟩) ∧
    (m = .OPTIONS → conquesoRoute properties m = ⟨200, some conquesoAllowedMethods, none⟩) ∧
    (m ≠ .GET → m ≠ .POST → m ≠ .PUT → m ≠ .OPTIONS →
      conquesoRoute properties m = ⟨405, some conquesoAllowedMethods, none⟩) := by
  cases m <;> simp [conquesoRoute]

theorem conqueso_method_table_witness :
    (HttpMethod.DELETE ≠ .GET) ∧
    conquesoRoute "a.b=1" .DELETE = ⟨405, some conquesoAllowedMethods, none⟩ :=
  ⟨by decide,
   (conqueso_method_table "a.b=1" .DELETE).2.2 (by decide) (by decide) (by decide) (by decide)⟩

/-! Facts about the consul source embedding. -/

theorem lookupName_upsert (props : List (String × List String)) (k : String) (v : List String) :
    lookupName (upsert props k v) k = some v := by
  induction props with
  | nil => simp [upsert, lookupName]
  | cons kv rest ih =>
    by_cases h : kv.1 = k
    · simp [upsert, h, lookupName]
    · simpa [upsert, h, lookupName] using ih

theorem lookupName_removeKey (props : List (String × List String)) (k : String) :
    lookupName (removeKey props k) k = none := by
  induction props with
  | nil => rfl
  | cons kv rest ih =>
    by_cases h : kv.1 = k
    · simpa [removeKey, h] using ih
    · simpa [removeKey, lookupName, h] using ih

theorem mem_regWatcher_of_mem (ws : List String) (a n : String) (h : n ∈ ws) :
    n ∈ regWatcher ws a := by
  unfold regWatcher
  split_ifs <;> simp [h]

theorem mem_foldl_regWatcher_of_mem (l : List String) (ws : List String) (n : String)
    (h : n ∈ ws) : n ∈ l.foldl regWatcher ws := by
  induction l generalizing ws with
  | nil => exact h
  | cons a rest ih =>
    simp only [List.foldl_cons]
    exact ih (regWatcher ws a) (mem_regWatcher_of_mem ws a n h)

theorem mem_foldl_regWatcher_of_mem_list (l : List String) (ws : List String) (n : String)
    (h : n ∈ l) : n ∈ l.foldl regWatcher ws := by
  induction l generalizing ws with
  | nil => cases h
  | cons a rest ih =>
    simp only [List.foldl_cons]
    rcases List.mem_cons.mp h with rfl | h'
    · refine mem_foldl_regWatcher_of_mem rest (regWatcher ws n) n ?_
      unfold regWatcher
      split_ifs with hc
      · simpa using hc
      · simp
    · exact ih (regWatcher ws a) h'

theorem nodup_foldl_regWatcher (l : List String) (ws : List String)
    (h : ws.Nodup) : (l.foldl regWatcher ws).Nodup := by
  induction l generalizing ws with
  | nil => exact h
  | cons a rest ih =>
    simp only [List.foldl_cons]
    refine ih (regWatcher ws a) ?_
    unfold regWatcher
    split_ifs with hc
    · exact h
    · refine List.Nodup.append h (List.nodup_singleton a) ?_
      intro x hx hxa
      rcases List.mem_singleton.mp hxa with rfl
      exact absurd hx (by simpa using hc)

/-- C6 counterexample: a health change whose two entries both carry node
address `10.0.0.1` records `addresses = ["10.0.0.1", "10.0.0.1"]` — sorted
but with the duplicate kept, not the duplicate-free list the claim states. -/
theorem consul_addresses_keep_duplicates :
    lookupName (onHealthServiceChange ⟨[], ["web"], [], false⟩ "web"
        [⟨none, some (some "10.0.0.1")⟩, ⟨none, some (some "10.0.0.1")⟩]).properties "web" =
      some ["10.0.0.1", "10.0.0.1"] ∧
    (["10.0.0.1", "10.0.0.1"] : List String) ≠ ["10.0.0.1"] := by
  exact ⟨rfl, by decide⟩

/-- C6 amended: a non-empty health change for watcher `N` sets
`properties[N].addresses` to the ascending-sorted list (duplicates preserved)
of each entry's `Service.Address` when present, else `Node.Address`; an empty
change ends that watcher and removes `properties[N]`. -/
theorem consul_health_change (st : ConsulState) (name : String) (data : List HealthEntry) :
    (data ≠ [] →
      ∃ l, lookupName (onHealthServiceChange st name data).properties name = some l ∧
        List.Sorted strLeRel l ∧ l.Perm (data.filterMap entryAddress)) ∧
    (data = [] →
      lookupName (onHealthServiceChange st name data).properties name = none ∧
      name ∉ (onHealthServiceChange st name data).watchers ∧
      (name ∈ st.watchers → name ∈ (onHealthServiceChange st name data).ended)) := by
  constructor
  · intro hne
    have hlen : data.length > 0 := List.length_pos.mpr hne
    refine ⟨jsSortStrings (data.filterMap entryAddress), ?_, ?_, ?_⟩
    · simp only [onHealthServiceChange, if_pos hlen]
      exact lookupName_upsert _ _ _
    · exact List.sorted_insertionSort strLeRel _
    · exact List.perm_insertionSort strLeRel _
  · intro he
    subst he
    refine ⟨lookupName_removeKey _ _, ?_, ?_⟩
    · simp [onHealthServiceChange]
    · intro hmem
      simp [onHealthServiceChange, hmem]

theorem consul_health_change_witness :
    (([⟨some (some "10.0.0.2"), none⟩, ⟨none, some (some "10.0.0.1")⟩] : List HealthEntry) ≠ []) ∧
    (∃ l, lookupName (onHealthServiceChange ⟨[], ["web"], [], false⟩ "web"
        [⟨some (some "10.0.0.2"), none⟩, ⟨none, some (some "10.0.0.1")⟩]).properties "web" =
          some l ∧
      List.Sorted strLeRel l ∧
      l.Perm (([⟨some (some "10.0.0.2"), none⟩,
                ⟨none, some (some "10.0.0.1")⟩] : List HealthEntry).filterMap entryAddress)) :=
  ⟨by decide,
   (consul_health_change ⟨[], ["web"], [], false⟩ "web"
     [⟨some (some "10.0.0.2"), none⟩, ⟨none, some (some "10.0.0.1")⟩]).1 (by decide)⟩

/-- C7 counterexample: a service-list change to the empty mapping leaves the
previously created `web` watcher registered and never ended, although `web`
is absent from the new mapping — watchers for disappeared services are not
torn down by `_onServiceListChange`. -/
theorem consul_stale_watcher_kept :
    (onServiceListChange ⟨[], [], [], false⟩ [("web", [])]).watchers = ["web"] ∧
    derivedNames [] = [] ∧
    (onServiceListChange (onServiceListChange ⟨[], [], [], false⟩ [("web", [])]) []).watchers =
      ["web"] ∧
    (onServiceListChange (onServiceListChange ⟨[], [], [], false⟩ [("web", [])]) []).ended = [] := by
  exact ⟨rfl, rfl, rfl, rfl⟩

/-- C7 amended: after a service-list change a health watcher exists for every
name derived from the new mapping (one per `(service, tag)` pair, or one per
service with an empty tag list) and a change never duplicates a watcher for
an existing name; but existing watchers are all kept — none is ended or torn
down by the service-list handler. -/
theorem consul_service_list_watchers (st : ConsulState) (data : List (String × List String)) :
    (∀ n ∈ st.watchers, n ∈ (onServiceListChange st data).watchers) ∧
    (∀ n ∈ derivedNames data, n ∈ (onServiceListChange st data).watchers) ∧
    (st.watchers.Nodup → (onServiceListChange st data).watchers.Nodup) ∧
    (onServiceListChange st data).ended = st.ended := by
  refine ⟨?_, ?_, ?_, rfl⟩
  · intro n hn
    exact mem_foldl_regWatcher_of_mem _ _ _ hn
  · intro n hn
    by_cases hc : st.watchers.contains n
    · exact mem_foldl_regWatcher_of_mem _ _ _ (List.mem_of_elem_eq_true hc)
    · refine mem_foldl_regWatcher_of_mem_list _ _ _ ?_
      simp only [List.mem_filter]
      exact ⟨hn, by simpa using hc⟩
  · intro h
    exact nodup_foldl_regWatcher _ _ h

/-! Facts about the secret-transformer cache signature.  The SHA-1 model is
first pinned to reference digests (FIPS 180 test vectors and a digest
produced by node's `crypto`), covering both a single-block message and the
padding class of lengths congruent to 56..63 mod 64, which spans an extra
block — the class the 62-byte serializations hashed below fall in. -/

set_option maxRecDepth 100000 in
theorem sha1_vector_one_block : base64 (sha1 (strBytes "abc")) = "qZk+NkcGgWq6PiVxeFDCbJzQ2J0=" := by
  decide

set_option maxRecDepth 100000 in
theorem sha1_vector_empty : base64 (sha1 (strBytes "")) = "2jmj7l5rSw0yVb/vlWAYkK/YBwk=" := by
  decide

set_option maxRecDepth 100000 in
theorem sha1_vector_two_block :
    base64 (sha1 (strBytes "abcdbcdecdefdefgefghfghighijhijkijkljklmklmnlmnomnopnopq")) =
      "hJg+RBw70m66rkqh+VEp5eVGcPE=" := by
  decide

set_option maxRecDepth 100000 in
theorem sigOf_matches_node_digest :
    sigOf ⟨[("type", Json.str "generic"), ("resource", Json.str "/v1/secret/foo")], ["a"]⟩ =
      "nj8kMhlM0mMpdSEuQ4vGuHU5+pI=" ∧
    stringify (.obj (infoOmap
      ⟨[("type", Json.str "generic"), ("resource", Json.str "/v1/secret/foo")], ["a"]⟩)) =
      "\x7b\"type\":\"generic\",\"resource\":\"/v1/secret/foo\",\"keyPath\":[\"a\"]\x7d" := by
  exact ⟨by decide, by decide⟩

set_option maxRecDepth 100000 in
/-- C2 counterexample: the hashed serialization contains the injected
`keyPath`, so the signature of a sentinel is not the SHA-1 of its spec alone,
and two sentinels with identical specs at different key paths miss each
other's cache entries: resolving `{a: s}` and then `{b: s}` with the same
spec `s` inside one TTL window calls the broker twice (once per transform),
not at most once. -/
theorem signature_depends_on_keypath :
    sigOf ⟨[("type", Json.str "generic"), ("resource", Json.str "/v1/secret/foo")], ["a"]⟩ ≠
      base64 (sha1 (strBytes (stringify
        (.obj [("type", Json.str "generic"), ("resource", Json.str "/v1/secret/foo")])))) ∧
    (transform (fun _ => .ok (.obj [("plaintext", .str "s3cr3t")])) []
      (.obj [("a", .obj [("$tokend",
        .obj [("type", Json.str "generic"), ("resource", Json.str "/v1/secret/foo")])])])).calls
      = 1 ∧
    (transform (fun _ => .ok (.obj [("plaintext", .str "s3cr3t")]))
      (transform (fun _ => .ok (.obj [("plaintext", .str "s3cr3t")])) []
        (.obj [("a", .obj [("$tokend",
          .obj [("type", Json.str "generic"), ("resource", Json.str "/v1/secret/foo")])])])).cache
      (.obj [("b", .obj [("$tokend",
        .obj [("type", Json.str "generic"), ("resource", Json.str "/v1/secret/foo")])])])).calls
      = 1 := by
  refine ⟨by decide, by decide, by decide⟩

set_option maxRecDepth 100000 in
/-- C2 amended: the cache signature is the SHA-1 (base64) of the canonical
JSON of the sentinel's spec together with its injected key path; a sentinel
whose signature is already cached resolves with no broker call (and adds
nothing to the cache), so within one TTL window the broker is called at most
once per (spec, key path) pair. -/
theorem cache_hit_no_broker_call (b : Broker) (cache : Entries) (info : TInfo)
    (h : hasKey cache (sigOf info) = true) :
    sigOf info = base64 (sha1 (strBytes (stringify (.obj (infoOmap info))))) ∧
    (resolveOne b cache info).calls = 0 ∧
    (resolveOne b cache info).cacheAdd = none := by
  refine ⟨rfl, ?_, ?_⟩ <;> simp [resolveOne, h]

set_option maxRecDepth 100000 in
theorem cache_hit_no_broker_call_witness :
    hasKey [(sigOf ⟨[("type", Json.str "generic"), ("resource", Json.str "/v1/secret/foo")], ["a"]⟩,
             Json.obj [("plaintext", .str "s3cr3t")])]
        (sigOf ⟨[("type", Json.str "generic"), ("resource", Json.str "/v1/secret/foo")], ["a"]⟩) =
      true ∧
    (resolveOne (fun _ => .ok (.obj [("plaintext", .str "s3cr3t")]))
      [(sigOf ⟨[("type", Json.str "generic"), ("resource", Json.str "/v1/secret/foo")], ["a"]⟩,
        Json.obj [("plaintext", .str "s3cr3t")])]
      ⟨[("type", Json.str "generic"), ("resource", Json.str "/v1/secret/foo")], ["a"]⟩).calls = 0 :=
  ⟨by decide,
   (cache_hit_no_broker_call (fun _ => .ok (.obj [("plaintext", .str "s3cr3t")]))
     [(sigOf ⟨[("type", Json.str "generic"), ("resource", Json.str "/v1/secret/foo")], ["a"]⟩,
       Json.obj [("plaintext", .str "s3cr3t")])]
     ⟨[("type", Json.str "generic"), ("resource", Json.str "/v1/secret/foo")], ["a"]⟩
     (by decide)).2.1⟩

/-! Facts about the collection walk of the secret transformer. -/

mutual

theorem collect_empty_of_no_sentinel (t : Json) (kp : List String)
    (h : hasSentinel t = false) : collectTransformables t kp = [] := by
  cases t with
  | obj kvs =>
    simp only [hasSentinel, Bool.or_eq_false_iff] at h
    obtain ⟨h1, h2⟩ := h
    simp only [collectTransformables]
    rw [if_neg (by simpa using h1)]
    exact collectFromEntries_empty_of_no_sentinel kvs kp h2
  | arr xs => rfl
  | null => rfl
  | bool b => rfl
  | num n => rfl
  | str s => rfl

theorem collectFromEntries_empty_of_no_sentinel (kvs : Entries) (kp : List String)
    (h : hasSentinelEntries kvs = false) : collectFromEntries kvs kp = [] := by
  cases kvs with
  | nil => rfl
  | cons kv rest =>
    obtain ⟨k, v⟩ := kv
    simp only [hasSentinelEntries, Bool.or_eq_false_iff] at h
    obtain ⟨h1, h2⟩ := h
    simp only [collectFromEntries]
    rw [collectFromEntries_empty_of_no_sentinel rest kp h2]
    cases v with
    | obj kvs' => rw [collect_empty_of_no_sentinel (.obj kvs') (kp ++ [k]) h1]; simp
    | arr xs => rfl
    | null => rfl
    | bool b => rfl
    | num n => rfl
    | str s => rfl

end

/-! Facts about key paths, `setIn`, `mergeDeep` and the overlay fold. -/

theorem div_symm (p q : List String) : diverges p q = diverges q p := by
  induction p generalizing q with
  | nil => cases q <;> rfl
  | cons pk prest ih =>
    cases q with
    | nil => rfl
    | cons qk qrest =>
      simp only [diverges]
      by_cases h : pk = qk
      · subst h
        simp [ih qrest]
      · simp [h, Ne.symm h]

theorem div_append (c : List String) (a b : String) (s s' : List String) (h : a ≠ b) :
    diverges (c ++ a :: s) (c ++ b :: s') = true := by
  induction c with
  | nil => simp [diverges, h]
  | cons x c' ih => simpa [diverges] using ih

theorem div_refl_false (p : List String) : diverges p p = false := by
  induction p with
  | nil => rfl
  | cons k rest ih => simp [diverges, ih]

theorem lookupPath_nil (v : Json) : lookupPath v [] = some v := by
  cases v <;> rfl

theorem lookupPath_setIn (p : List String) (v : Json) : lookupPath (setIn p v) p = some v := by
  induction p with
  | nil => exact lookupPath_nil v
  | cons k rest ih => simpa [setIn, lookupPath, lookupKey] using ih

theorem lookupPath_setIn_div (p q : List String) (w : Json) (h : diverges p q = true) :
    lookupPath (setIn q w) p = none := by
  induction p generalizing q with
  | nil => simp [diverges] at h
  | cons pk prest ih =>
    cases q with
    | nil => simp [diverges] at h
    | cons qk qrest =>
      simp only [diverges] at h
      by_cases he : pk = qk
      · subst he
        rw [if_pos rfl] at h
        simpa [setIn, lookupPath, lookupKey] using ih qrest h
      · simp [setIn, lookupPath, lookupKey, Ne.symm he]

theorem lookupKey_append (l1 l2 : Entries) (k : String) :
    lookupKey (l1 ++ l2) k =
      match lookupKey l1 k with
      | some v => some v
      | none => lookupKey l2 k := by
  induction l1 with
  | nil => rfl
  | cons kv rest ih =>
    by_cases h : kv.1 = k
    · simp [lookupKey, h]
    · simpa [lookupKey, h] using ih

theorem lookupKey_mergeInto (a b : Entries) (k : String) :
    lookupKey (mergeInto a b) k =
      match lookupKey a k with
      | some va => some (match lookupKey b k with
          | some vb => mergeDeep va vb
          | none => va)
      | none => none := by
  induction a with
  | nil => rfl
  | cons kv rest ih =>
    obtain ⟨k', va⟩ := kv
    by_cases h : k' = k
    · subst h
      simp [mergeInto, lookupKey]
    · simpa [mergeInto, lookupKey, h] using ih

theorem lookupKey_filterNot (a b : Entries) (k : String) :
    lookupKey (b.filter (fun kv => !(hasKey a kv.1))) k =
      if hasKey a k then none else lookupKey b k := by
  induction b with
  | nil => cases h : hasKey a k <;> simp [lookupKey, h]
  | cons kv rest ih =>
    obtain ⟨k', v'⟩ := kv
    by_cases hkk : k' = k
    · subst hkk
      cases h : hasKey a k' <;> simp [List.filter, lookupKey, h, ih]
    · cases h : hasKey a k' <;> simp [List.filter, lookupKey, h, hkk, ih]

theorem lookupKey_mergeObj (a b : Entries) (k : String) :
    lookupKey (mergeInto a b ++ b.filter (fun kv => !(hasKey a kv.1))) k =
      match lookupKey a k with
      | some va => some (match lookupKey b k with
          | some vb => mergeDeep va vb
          | none => va)
      | none => lookupKey b k := by
  rw [lookupKey_append, lookupKey_mergeInto, lookupKey_filterNot]
  cases ha : lookupKey a k <;> simp [hasKey, ha]

theorem lookupPath_mergeDeep_setIn_div (p q : List String) (a w : Json)
    (h : diverges p q = true) :
    lookupPath (mergeDeep a (setIn q w)) p = lookupPath a p := by
  induction p generalizing q a with
  | nil => simp [diverges] at h
  | cons pk prest ih =>
    cases q with
    | nil => simp [diverges] at h
    | cons qk qrest =>
      simp only [diverges] at h
      cases a with
      | obj aE =>
        show lookupPath (mergeDeep (.obj aE) (.obj [(qk, setIn qrest w)])) (pk :: prest) = _
        simp only [mergeDeep]
        by_cases hpq : pk = qk
        · subst hpq
          rw [if_pos rfl] at h
          simp only [lookupPath, lookupKey_mergeObj]
          cases haE : lookupKey aE pk with
          | some va =>
            simp only [lookupKey, if_pos rfl]
            exact ih qrest va h
          | none =>
            simp only [lookupKey, if_pos rfl]
            exact lookupPath_setIn_div prest qrest w h
        · simp only [lookupPath, lookupKey_mergeObj, lookupKey, if_neg (Ne.symm hpq)]
          cases haE : lookupKey aE pk <;> rfl
      | null => exact lookupPath_setIn_div _ _ w (by simp [diverges, h])
      | bool v => exact lookupPath_setIn_div _ _ w (by simp [diverges, h])
      | num n => exact lookupPath_setIn_div _ _ w (by simp [diverges, h])
      | str s => exact lookupPath_setIn_div _ _ w (by simp [diverges, h])
      | arr xs => exact lookupPath_setIn_div _ _ w (by simp [diverges, h])

theorem lookupPath_mergeDeep_setIn_self (p : List String) (a v : Json)
    (h : lookupPath a p = none) :
    lookupPath (mergeDeep a (setIn p v)) p = some v := by
  induction p generalizing a with
  | nil => simp [lookupPath] at h
  | cons pk prest ih =>
    cases a with
    | obj aE =>
      show lookupPath (mergeDeep (.obj aE) (.obj [(pk, setIn prest v)])) (pk :: prest) = _
      simp only [mergeDeep, lookupPath, lookupKey_mergeObj]
      cases haE : lookupKey aE pk with
      | some va =>
        simp only [lookupKey, if_pos rfl]
        refine ih va ?_
        simpa [lookupPath, haE] using h
      | none =>
        simp only [lookupKey, if_pos rfl]
        exact lookupPath_setIn prest v
    | null => exact lookupPath_setIn _ v
    | bool b => exact lookupPath_setIn _ v
    | num n => exact lookupPath_setIn _ v
    | str s => exact lookupPath_setIn _ v
    | arr xs => exact lookupPath_setIn _ v

theorem lookupPath_foldMerge_div (pieces : List (List String × Json)) (p : List String)
    (a : Json) (h : ∀ x ∈ pieces, diverges p x.1 = true) :
    lookupPath (pieces.foldl (fun acc x => mergeDeep acc (setIn x.1 x.2)) a) p =
      lookupPath a p := by
  induction pieces generalizing a with
  | nil => rfl
  | cons y rest ih =>
    simp only [List.foldl_cons]
    rw [ih (mergeDeep a (setIn y.1 y.2)) (fun x hx => h x (List.mem_cons_of_mem y hx))]
    exact lookupPath_mergeDeep_setIn_div p y.1 a y.2 (h y (List.mem_cons_self y rest))

theorem fold_lookup (pieces : List (List String × Json)) (a : Json)
    (hpw : pieces.Pairwise (fun x y => diverges x.1 y.1 = true))
    (hnone : ∀ x ∈ pieces, lookupPath a x.1 = none) :
    ∀ x ∈ pieces,
      lookupPath (pieces.foldl (fun acc x => mergeDeep acc (setIn x.1 x.2)) a) x.1 =
        some x.2 := by
  induction pieces generalizing a with
  | nil => intro x hx; cases hx
  | cons y rest ih =>
    rw [List.pairwise_cons] at hpw
    obtain ⟨hy, hrest⟩ := hpw
    intro x hx
    simp only [List.foldl_cons]
    rcases List.mem_cons.mp hx with rfl | hx'
    · rw [lookupPath_foldMerge_div rest x.1 _ hy]
      exact lookupPath_mergeDeep_setIn_self x.1 a x.2 (hnone x (List.mem_cons_self x rest))
    · refine ih (mergeDeep a (setIn y.1 y.2)) hrest ?_ x hx'
      intro z hz
      rw [lookupPath_mergeDeep_setIn_div z.1 y.1 a y.2 (by rw [div_symm]; exact hy z hz)]
      exact hnone z (List.mem_cons_of_mem y hz)

mutual

theorem collect_path_shape (t : Json) (kp : List String) :
    ∀ info ∈ collectTransformables t kp, ∃ s, info.keyPath = kp ++ s := by
  cases t with
  | obj kvs =>
    by_cases hs : keyList kvs = ["$tokend"]
    · intro info hinfo
      simp only [collectTransformables, if_pos hs] at hinfo
      refine ⟨[], ?_⟩
      rcases hl : lookupKey kvs "$tokend" with _ | v
      · rw [hl] at hinfo
        simp at hinfo
        simp [hinfo]
      · rw [hl] at hinfo
        cases v <;> simp at hinfo <;> simp [hinfo]
    · intro info hinfo
      simp only [collectTransformables, if_neg hs] at hinfo
      obtain ⟨k, s, _, hpath⟩ := collectEntries_path_shape kvs kp info hinfo
      exact ⟨k :: s, hpath⟩
  | arr xs => intro info hinfo; cases hinfo
  | null => intro info hinfo; cases hinfo
  | bool b => intro info hinfo; cases hinfo
  | num n => intro info hinfo; cases hinfo
  | str s => intro info hinfo; cases hinfo

theorem collectEntries_path_shape (kvs : Entries) (kp : List String) :
    ∀ info ∈ collectFromEntries kvs kp,
      ∃ k s, k ∈ keyList kvs ∧ info.keyPath = kp ++ k :: s := by
  cases kvs with
  | nil => intro info hinfo; cases hinfo
  | cons kv rest =>
    obtain ⟨k0, v⟩ := kv
    intro info hinfo
    simp only [collectFromEntries, List.mem_append] at hinfo
    rcases hinfo with hv | hr
    · cases v with
      | obj kvs' =>
        obtain ⟨s, hpath⟩ := collect_path_shape (.obj kvs') (kp ++ [k0]) info hv
        refine ⟨k0, s, by simp [keyList], ?_⟩
        rw [hpath]
        simp
      | arr xs => cases hv
      | null => cases hv
      | bool b => cases hv
      | num n => cases hv
      | str s => cases hv
    · obtain ⟨k, s, hk, hpath⟩ := collectEntries_path_shape rest kp info hr
      exact ⟨k, s, by simp [keyList] at hk ⊢; exact Or.inr hk, hpath⟩

end

mutual

theorem collect_pairwise (t : Json) (kp : List String) (hwf : wfTree t = true) :
    (collectTransformables t kp).Pairwise
      (fun i j => diverges i.keyPath j.keyPath = true) := by
  cases t with
  | obj kvs =>
    simp only [wfTree, Bool.and_eq_true] at hwf
    obtain ⟨⟨hsent, hnodup⟩, hent⟩ := hwf
    by_cases hs : keyList kvs = ["$tokend"]
    · simp only [collectTransformables, if_pos hs]
      rcases hl : lookupKey kvs "$tokend" with _ | v
      · exact List.pairwise_singleton _ _
      · cases v <;> exact List.pairwise_singleton _ _
    · simp only [collectTransformables, if_neg hs]
      exact collectEntries_pairwise kvs kp hnodup hent
  | arr xs => exact List.Pairwise.nil
  | null => exact List.Pairwise.nil
  | bool b => exact List.Pairwise.nil
  | num n => exact List.Pairwise.nil
  | str s => exact List.Pairwise.nil

theorem collectEntries_pairwise (kvs : Entries) (kp : List String)
    (hnodup : nodupKeysB (keyList kvs) = true) (hwf : wfEntries kvs = true) :
    (collectFromEntries kvs kp).Pairwise
      (fun i j => diverges i.keyPath j.keyPath = true) := by
  cases kvs with
  | nil => exact List.Pairwise.nil
  | cons kv rest =>
    obtain ⟨k0, v⟩ := kv
    simp only [keyList, List.map_cons, nodupKeysB, Bool.and_eq_true] at hnodup
    obtain ⟨hnc, hnr⟩ := hnodup
    simp only [wfEntries, Bool.and_eq_true] at hwf
    obtain ⟨hv, hr⟩ := hwf
    simp only [collectFromEntries]
    rw [List.pairwise_append]
    refine ⟨?_, collectEntries_pairwise rest kp hnr hr, ?_⟩
    · cases v with
      | obj kvs' => exact collect_pairwise (.obj kvs') (kp ++ [k0]) hv
      | arr xs => exact List.Pairwise.nil
      | null => exact List.Pairwise.nil
      | bool b => exact List.Pairwise.nil
      | num n => exact List.Pairwise.nil
      | str s => exact List.Pairwise.nil
    · intro i hi j hj
      have hipath : ∃ s, i.keyPath = kp ++ k0 :: s := by
        cases v with
        | obj kvs' =>
          obtain ⟨s, hpath⟩ := collect_path_shape (.obj kvs') (kp ++ [k0]) i hi
          exact ⟨s, by rw [hpath]; simp⟩
        | arr xs => cases hi
        | null => cases hi
        | bool b => cases hi
        | num n => cases hi
        | str s => cases hi
      obtain ⟨s, hip⟩ := hipath
      obtain ⟨k', s', hk', hjp⟩ := collectEntries_path_shape rest kp j hj
      have hne : k0 ≠ k' := by
        intro hcontra
        subst hcontra
        have hnotmem : k0 ∉ keyList rest := by simpa [keyList] using hnc
        exact hnotmem hk'
      rw [hip, hjp]
      exact div_append kp k0 k' s s' hne

end

/-- The substituted value of a failing resolution is `null`, and nothing is
cached for it. -/
theorem resolveOne_fails_null (b : Broker) (cache : Entries) (info : TInfo)
    (h : resolutionFails b cache info = true) :
    (resolveOne b cache info).value = .null ∧ (resolveOne b cache info).cacheAdd = none := by
  unfold resolutionFails at h
  rw [Bool.and_eq_true] at h
  obtain ⟨h1, h2⟩ := h
  unfold resolveOne
  rw [if_neg (by simpa using h1)]
  cases hreq : brokerRequestOf info with
  | none => exact ⟨rfl, rfl⟩
  | some req =>
    rw [hreq] at h2
    simp only at h2
    cases hresp : b req with
    | error e => simp [unpackResponse, hresp]
    | ok data =>
      rw [hresp] at h2
      cases data with
      | obj kvs =>
        simp only [resolutionFails.reqFails] at h2
        simp [unpackResponse, hresp, (by simpa using h2 : hasKey kvs "plaintext" = false)]
      | null => simp [unpackResponse, hresp]
      | bool v => simp [unpackResponse, hresp]
      | num n => simp [unpackResponse, hresp]
      | str s => simp [unpackResponse, hresp]
      | arr xs => simp [unpackResponse, hresp]

/-- The overlay fold of `transform`, restated over (key path, value) pairs. -/
theorem transform_overlay_eq (b : Broker) (cache : Entries) (t : Json) :
    (transform b cache t).overlay =
      ((collectTransformables t []).map
        (fun i => (i.keyPath, (resolveOne b cache i).value))).foldl
        (fun acc x => mergeDeep acc (setIn x.1 x.2)) (.obj []) := by
  simp [transform, List.foldl_map]

/-- C1: for every well-formed input property tree and every broker behavior,
each collected sentinel whose resolution fails — broker request rejected
(connection error or non-JSON body), response without a `plaintext` key, or
an unrecognized sentinel type — has its key path bound to `null` in the
overlay `transform` returns; the result is total, so no error reaches the
caller. -/
theorem transform_failure_null (b : Broker) (cache : Entries) (t : Json)
    (hwf : wfTree t = true) :
    ∀ info ∈ collectTransformables t [], resolutionFails b cache info = true →
      lookupPath (transform b cache t).overlay info.keyPath = some .null := by
  intro info hinfo hfail
  obtain ⟨hval, _⟩ := resolveOne_fails_null b cache info hfail
  rw [transform_overlay_eq]
  cases t with
  | obj kvs =>
    by_cases hs : keyList kvs = ["$tokend"]
    · have hsentv : ∃ spec, lookupKey kvs "$tokend" = some (.obj spec) := by
        simp only [wfTree, Bool.and_eq_true] at hwf
        obtain ⟨⟨hsent, _⟩, _⟩ := hwf
        rw [if_pos hs] at hsent
        rcases hl : lookupKey kvs "$tokend" with _ | v
        · rw [hl] at hsent; cases hsent
        · rw [hl] at hsent
          cases v <;> first | exact ⟨_, rfl⟩ | cases hsent
      obtain ⟨spec, hl⟩ := hsentv
      have hcol : collectTransformables (.obj kvs) [] = [⟨spec, []⟩] := by
        simp [collectTransformables, if_pos hs, hl]
      rw [hcol] at hinfo ⊢
      rcases List.mem_singleton.mp hinfo with rfl
      simp only [List.map_cons, List.map_nil, List.foldl_cons, List.foldl_nil]
      rw [hval]
      rfl
    · have hpw := collect_pairwise (.obj kvs) [] hwf
      have hshape : ∀ i ∈ collectTransformables (.obj kvs) [],
          ∃ k s, i.keyPath = k :: s := by
        intro i hi
        simp only [collectTransformables, if_neg hs] at hi
        obtain ⟨k, s, _, hpath⟩ := collectEntries_path_shape kvs [] i hi
        exact ⟨k, s, by simpa using hpath⟩
      have hmain := fold_lookup
        ((collectTransformables (.obj kvs) []).map
          (fun i => (i.keyPath, (resolveOne b cache i).value)))
        (.obj [])
        (by
          rw [List.pairwise_map]
          exact hpw)
        (by
          intro x hx
          rw [List.mem_map] at hx
          obtain ⟨i, hi, rfl⟩ := hx
          obtain ⟨k, s, hpath⟩ := hshape i hi
          simp only [hpath]
          rfl)
        (info.keyPath, (resolveOne b cache info).value)
        (List.mem_map.mpr ⟨info, hinfo, rfl⟩)
      rw [hval] at hmain
      exact hmain
  | arr xs => cases hinfo
  | null => cases hinfo
  | bool v => cases hinfo
  | num n => cases hinfo
  | str s => cases hinfo

theorem transform_failure_null_witness :
    wfTree (.obj [("password", .obj [("$tokend",
      .obj [("type", Json.str "generic"),
            ("resource", Json.str "/v1/secret/kali/root/password")])])]) = true ∧
    (⟨[("type", Json.str "generic"), ("resource", Json.str "/v1/secret/kali/root/password")],
      ["password"]⟩ : TInfo) ∈
      collectTransformables (.obj [("password", .obj [("$tokend",
        .obj [("type", Json.str "generic"),
              ("resource", Json.str "/v1/secret/kali/root/password")])])]) [] ∧
    resolutionFails (fun _ => .error "connect ECONNREFUSED 127.0.0.1:4500") []
      ⟨[("type", Json.str "generic"), ("resource", Json.str "/v1/secret/kali/root/password")],
        ["password"]⟩ = true ∧
    lookupPath (transform (fun _ => .error "connect ECONNREFUSED 127.0.0.1:4500") []
      (.obj [("password", .obj [("$tokend",
        .obj [("type", Json.str "generic"),
              ("resource", Json.str "/v1/secret/kali/root/password")])])])).overlay
      ["password"] = some .null :=
  ⟨by rfl, by simp [collectTransformables, collectFromEntries, keyList, lookupKey], by rfl,
   transform_failure_null (fun _ => .error "connect ECONNREFUSED 127.0.0.1:4500") []
     (.obj [("password", .obj [("$tokend",
       .obj [("type", Json.str "generic"),
             ("resource", Json.str "/v1/secret/kali/root/password")])])]) (by rfl)
     ⟨[("type", Json.str "generic"), ("resource", Json.str "/v1/secret/kali/root/password")],
       ["password"]⟩
     (by simp [collectTransformables, collectFromEntries, keyList, lookupKey]) (by rfl)⟩

/-- C10: a `null` input, or any property tree containing no mapping whose
sole key is `$tokend` (in particular one where `$tokend` appears alongside
other keys), transforms to the empty overlay: no broker call, no cache
change, and an overlay carrying none of the input's keys. -/
theorem transform_no_sentinels (b : Broker) (cache : Entries) (t : Json)
    (h : hasSentinel t = false) :
    (transform b cache t).overlay = .obj [] ∧
    (transform b cache t).calls = 0 ∧
    (transform b cache t).cache = cache := by
  have hc : collectTransformables t [] = [] := collect_empty_of_no_sentinel t [] h
  refine ⟨?_, ?_, ?_⟩ <;> simp [transform, hc]

theorem transform_no_sentinels_witness :
    hasSentinel (.obj [("a", .obj [("$tokend",
        .obj [("type", Json.str "generic"), ("resource", Json.str "/v1/secret/foo")]),
      ("other", .num 1)])]) = false ∧
    hasSentinel Json.null = false ∧
    ((transform (fun _ => .error "ECONNREFUSED") []
        (.obj [("a", .obj [("$tokend",
          .obj [("type", Json.str "generic"), ("resource", Json.str "/v1/secret/foo")]),
        ("other", .num 1)])])).overlay = .obj [] ∧
      (transform (fun _ => .error "ECONNREFUSED") []
        (.obj [("a", .obj [("$tokend",
          .obj [("type", Json.str "generic"), ("resource", Json.str "/v1/secret/foo")]),
        ("other", .num 1)])])).calls = 0 ∧
      (transform (fun _ => .error "ECONNREFUSED") []
        (.obj [("a", .obj [("$tokend",
          .obj [("type", Json.str "generic"), ("resource", Json.str "/v1/secret/foo")]),
        ("other", .num 1)])])).cache = []) ∧
    (transform (fun _ => .error "ECONNREFUSED") [] Json.null).overlay = .obj [] :=
  ⟨by rfl, by rfl,
   transform_no_sentinels (fun _ => .error "ECONNREFUSED") []
     (.obj [("a", .obj [("$tokend",
       .obj [("type", Json.str "generic"), ("resource", Json.str "/v1/secret/foo")]),
     ("other", .num 1)])]) (by rfl),
   (transform_no_sentinels (fun _ => .error "ECONNREFUSED") [] Json.null (by rfl)).1⟩

/-! Facts about the plugin-manager embedding. -/

theorem registerStorage_cases (s : List RegisteredSource) (x : RegisteredSource) :
    registerStorage s x = s ∨ registerStorage s x = s ++ [x] := by
  unfold registerStorage
  split_ifs <;> simp

theorem registerStorage_keysDistinct (s : List RegisteredSource) (x : RegisteredSource)
    (h : KeysDistinct s) : KeysDistinct (registerStorage s x) := by
  unfold registerStorage KeysDistinct at *
  split_ifs with hx
  · exact h
  · rw [List.pairwise_append]
    refine ⟨h, List.pairwise_singleton _ _, ?_⟩
    intro a ha b hb
    rcases List.mem_singleton.mp hb with rfl
    intro hcontra
    apply hx
    simp only [List.any_eq_true]
    exact ⟨a, ha, by simpa using hcontra⟩

theorem registerOne_invariant (hl : Bool) (bucket : String) (st st' : PMState) (spec : Json)
    (h : registerOne hl bucket st spec = .ok st') :
    (st'.storage = st.storage ∨
      st'.storage = registerStorage st.storage (s3InstanceOf bucket spec)) ∧
    st'.shutdowns = st.shutdowns ∧ st'.retryTimers = st.retryTimers := by
  unfold registerOne at h
  repeat' split at h
  all_goals cases h
  all_goals simp [pmError]

theorem registerSources_invariant (hl : Bool) (bucket : String) (specs : List Json)
    (st st' : PMState) (h : registerSources hl bucket st specs = .ok st')
    (hdist : KeysDistinct st.storage) :
    KeysDistinct st'.storage ∧ (∃ tail, st'.storage = st.storage ++ tail) ∧
    st'.shutdowns = st.shutdowns ∧ st'.retryTimers = st.retryTimers := by
  induction specs generalizing st with
  | nil =>
    injection h with h
    subst h
    exact ⟨hdist, ⟨[], by simp⟩, rfl, rfl⟩
  | cons spec rest ih =>
    simp only [registerSources] at h
    cases hone : registerOne hl bucket st spec with
    | error e => rw [hone] at h; simp at h
    | ok st1 =>
      rw [hone] at h
      simp only at h
      obtain ⟨hsto, hshut, htim⟩ := registerOne_invariant hl bucket st st1 spec hone
      have hdist1 : KeysDistinct st1.storage := by
        rcases hsto with h1 | h1
        · rw [h1]; exact hdist
        · rw [h1]; exact registerStorage_keysDistinct _ _ hdist
      obtain ⟨hd, ⟨tail, htail⟩, hs, ht⟩ := ih st1 h hdist1
      refine ⟨hd, ?_, by omega, by omega⟩
      rcases hsto with h1 | h1
      · exact ⟨tail, by rw [htail, h1]⟩
      · rcases registerStorage_cases st.storage (s3InstanceOf bucket spec) with h2 | h2
        · exact ⟨tail, by rw [htail, h1, h2]⟩
        · exact ⟨[s3InstanceOf bucket spec] ++ tail, by rw [htail, h1, h2]; simp⟩

theorem registerSources_s3 (hl : Bool) (bucket : String) (l : List Json) (st : PMState)
    (h : allWfS3 l = true) :
    registerSources hl bucket st l = .ok { st with storage := s3Fold bucket st.storage l } := by
  induction l generalizing st with
  | nil => cases st; rfl
  | cons spec rest ih =>
    simp only [allWfS3, Bool.and_eq_true] at h
    obtain ⟨h1, h2⟩ := h
    unfold wfS3Spec at h1
    cases spec with
    | obj kvs =>
      simp only [Bool.and_eq_true] at h1
      obtain ⟨ht, hp⟩ := h1
      simp only [registerSources, registerOne]
      cases htype : lookupKey kvs "type" with
      | none => rw [htype] at ht; exact absurd ht (by simp)
      | some tv =>
        rw [htype] at ht
        cases tv with
        | str t =>
          simp only at ht
          cases hparam : lookupKey kvs "parameters" with
          | none => rw [hparam] at hp; exact absurd hp (by simp)
          | some pv =>
            rw [hparam] at hp
            cases pv with
            | obj params =>
              simp only at hp
              have ht' : jsToLower t = "s3" := by simpa using ht
              simp only [registerSources, registerOne, htype, hparam, ht', hp, s3Fold,
                if_true, ite_true]
              rw [ih _ h2]
            | null => exact absurd hp (by simp)
            | bool b => exact absurd hp (by simp)
            | num n => exact absurd hp (by simp)
            | str s => exact absurd hp (by simp)
            | arr xs => exact absurd hp (by simp)
        | null => exact absurd ht (by simp)
        | bool b => exact absurd ht (by simp)
        | num n => exact absurd ht (by simp)
        | arr xs => exact absurd ht (by simp)
        | obj o => exact absurd ht (by simp)
    | null => exact absurd h1 (by simp [wfS3Spec])
    | bool b => exact absurd h1 (by simp [wfS3Spec])
    | num n => exact absurd h1 (by simp [wfS3Spec])
    | str s => exact absurd h1 (by simp [wfS3Spec])
    | arr xs => exact absurd h1 (by simp [wfS3Spec])

theorem registerSources_append (hl : Bool) (bucket : String) (l₁ l₂ : List Json) (st : PMState) :
    registerSources hl bucket st (l₁ ++ l₂) =
      (registerSources hl bucket st l₁).bind
        (fun st' => registerSources hl bucket st' l₂) := by
  induction l₁ generalizing st with
  | nil => rfl
  | cons spec rest ih =>
    simp only [List.cons_append, registerSources]
    cases hone : registerOne hl bucket st spec with
    | error e => rfl
    | ok st1 => exact ih st1

/-- C4: a spec with an unrecognized type makes `_registerSources` emit exactly
one error, `Source type <t> not implemented`, set `ok` to `false`, and skip
that spec; every other (s3) spec in the list is still registered — the
resulting storage equals the one obtained from the list without the unknown
spec, which itself emits no error. -/
theorem pm_unknown_source_type (bucket : String) (st : PMState) (pre post : List Json)
    (kvs : Entries) (t : String)
    (hpre : allWfS3 pre = true) (hpost : allWfS3 post = true)
    (htype : lookupKey kvs "type" = some (.str t)) (hunk : jsToLower t ≠ "s3") :
    ∃ st' st'',
      registerSources true bucket st (pre ++ .obj kvs :: post) = .ok st' ∧
      registerSources true bucket st (pre ++ post) = .ok st'' ∧
      st'.errors = st.errors ++ ["Source type " ++ t ++ " not implemented"] ∧
      st'.ok = false ∧
      st'.storage = st''.storage ∧
      st''.errors = st.errors ∧ st''.ok = st.ok := by
  have hmid : ∀ s : PMState, registerOne true bucket s (.obj kvs) =
      .ok { s with ok := false
                   errors := s.errors ++ ["Source type " ++ t ++ " not implemented"] } := by
    intro s
    simp only [registerOne, htype]
    rw [if_neg hunk]
    rfl
  refine ⟨⟨false, st.errors ++ ["Source type " ++ t ++ " not implemented"],
            s3Fold bucket (s3Fold bucket st.storage pre) post, st.shutdowns, st.retryTimers⟩,
          ⟨st.ok, st.errors, s3Fold bucket (s3Fold bucket st.storage pre) post,
            st.shutdowns, st.retryTimers⟩, ?_, ?_, rfl, rfl, rfl, rfl, rfl⟩
  · rw [registerSources_append, registerSources_s3 true bucket pre st hpre]
    simp only [Except.bind, registerSources, hmid]
    rw [registerSources_s3 true bucket post _ hpost]
  · rw [registerSources_append, registerSources_s3 true bucket pre st hpre]
    simp only [Except.bind]
    rw [registerSources_s3 true bucket post _ hpost]

theorem pm_unknown_source_type_witness :
    allWfS3 [Json.obj [("name", .str "global"), ("type", .str "s3"),
        ("parameters", .obj [("path", .str "global.json")])]] = true ∧
    lookupKey [("name", Json.str "global"), ("type", .str "someBrandNewSourceType"),
        ("parameters", .obj [("path", .str "global.json")])] "type" =
      some (.str "someBrandNewSourceType") ∧
    (jsToLower "someBrandNewSourceType" ≠ "s3") ∧
    (∃ st' st'',
      registerSources true "foo" ⟨true, [], [], 0, 0⟩
          ([Json.obj [("name", .str "global"), ("type", .str "s3"),
              ("parameters", .obj [("path", .str "global.json")])]] ++
            Json.obj [("name", .str "global"), ("type", .str "someBrandNewSourceType"),
              ("parameters", .obj [("path", .str "global.json")])] :: []) = .ok st' ∧
      registerSources true "foo" ⟨true, [], [], 0, 0⟩
          ([Json.obj [("name", .str "global"), ("type", .str "s3"),
              ("parameters", .obj [("path", .str "global.json")])]] ++ []) = .ok st'' ∧
      st'.errors = [] ++ ["Source type " ++ "someBrandNewSourceType" ++ " not implemented"] ∧
      st'.ok = false ∧
      st'.storage = st''.storage ∧
      st''.errors = [] ∧ st''.ok = true) := by
  refine ⟨by rfl, by rfl, by decide, ?_⟩
  exact pm_unknown_source_type "foo" ⟨true, [], [], 0, 0⟩ _ [] _ "someBrandNewSourceType"
    (by rfl) (by rfl) (by rfl) (by decide)

/-- C5: when interpolation of the index throws (`StringTemplate.coerce`
rejecting, or the index properties not yet being an array), the reload
handler sets `ok = false`, emits the error, and returns with Storage's source
list, the shutdown count, and the timer count unchanged — no source is
registered and no retry timer is installed. -/
theorem pm_interpolation_failure (bucket : String) (coerce : Json → Except String Json)
    (idx : Json) (st : PMState) (e : String)
    (hfail : sourcesFromIndex coerce idx = .error e) :
    ∃ st', loadSourcesFromIndex true bucket coerce idx st = .ok st' ∧
      st'.ok = false ∧ st'.errors = st.errors ++ [e] ∧ st'.storage = st.storage ∧
      st'.shutdowns = st.shutdowns ∧ st'.retryTimers = st.retryTimers := by
  refine ⟨pmError true st e, ?_, rfl, rfl, rfl, rfl, rfl⟩
  unfold loadSourcesFromIndex
  rw [hfail]

theorem pm_interpolation_failure_witness :
    sourcesFromIndex
        (fun v => match v with
          | .str "account/\x7b\x7binstance.account\x7d\x7d.json" => .error "UNRESOLVED_TEMPLATE"
          | v => .ok v)
        (.arr [.obj [("name", .str "account"), ("type", .str "s3"),
          ("parameters", .obj [("path", .str "account/\x7b\x7binstance.account\x7d\x7d.json")])]]) =
      .error "UNRESOLVED_TEMPLATE" ∧
    (∃ st', loadSourcesFromIndex true "foo"
        (fun v => match v with
          | .str "account/\x7b\x7binstance.account\x7d\x7d.json" => .error "UNRESOLVED_TEMPLATE"
          | v => .ok v)
        (.arr [.obj [("name", .str "account"), ("type", .str "s3"),
          ("parameters", .obj [("path", .str "account/\x7b\x7binstance.account\x7d\x7d.json")])]])
        ⟨true, [], [], 0, 0⟩ = .ok st' ∧
      st'.ok = false ∧ st'.errors = [] ++ ["UNRESOLVED_TEMPLATE"] ∧ st'.storage = [] ∧
      st'.shutdowns = 0 ∧ st'.retryTimers = 0) :=
  ⟨rfl, pm_interpolation_failure "foo" _ _ ⟨true, [], [], 0, 0⟩ "UNRESOLVED_TEMPLATE" rfl⟩

/-- C3 counterexample: reloading with an index that dropped the previously
registered source leaves that source in Storage, with no shutdown — the
handler registers what the index lists but never diffs away removed
sources. -/
theorem pm_removed_source_not_unregistered :
    ∃ st1 st2 : PMState,
      loadSourcesFromIndex true "bkt" (fun v => .ok v)
          (.arr [.obj [("name", .str "global"), ("type", .str "s3"),
            ("parameters", .obj [("path", .str "global.json")])]])
          ⟨true, [], [], 0, 0⟩ = .ok st1 ∧
      st1.storage = [⟨"s3", "s3-bkt-global.json"⟩] ∧
      loadSourcesFromIndex true "bkt" (fun v => .ok v) (.arr []) st1 = .ok st2 ∧
      st2.storage = [⟨"s3", "s3-bkt-global.json"⟩] ∧
      st2.shutdowns = 0 ∧ st2.ok = true := by
  exact ⟨_, _, rfl, rfl, rfl, rfl, rfl, rfl⟩

/-- C3 amended: every reload registers each interpolated spec through
Storage's duplicate-rejecting `register`, so the `(type, name)` keys in
Storage stay pairwise distinct; Storage only ever grows at the end, and specs
that disappeared from the index are neither shut down nor unregistered. -/
theorem pm_reload_storage_invariant (hl : Bool) (bucket : String)
    (coerce : Json → Except String Json) (idx : Json) (st st' : PMState)
    (hload : loadSourcesFromIndex hl bucket coerce idx st = .ok st')
    (hdist : KeysDistinct st.storage) :
    KeysDistinct st'.storage ∧ (∃ tail, st'.storage = st.storage ++ tail) ∧
    st'.shutdowns = st.shutdowns := by
  unfold loadSourcesFromIndex at hload
  cases hsrc : sourcesFromIndex coerce idx with
  | error e =>
    rw [hsrc] at hload
    injection hload with hload
    subst hload
    exact ⟨hdist, ⟨[], by simp [pmError]⟩, rfl⟩
  | ok specs =>
    rw [hsrc] at hload
    obtain ⟨hd, htail, hs, _⟩ :=
      registerSources_invariant hl bucket specs _ st' hload hdist
    exact ⟨hd, htail, hs⟩

theorem pm_reload_storage_invariant_witness :
    loadSourcesFromIndex true "bkt" (fun v => .ok v)
        (.arr [.obj [("name", .str "global"), ("type", .str "s3"),
          ("parameters", .obj [("path", .str "global.json")])]])
        ⟨true, [], [], 0, 0⟩ =
      .ok ⟨true, [], [⟨"s3", "s3-bkt-global.json"⟩], 0, 0⟩ ∧
    KeysDistinct ([] : List RegisteredSource) ∧
    (KeysDistinct [RegisteredSource.mk "s3" "s3-bkt-global.json"] ∧
      (∃ tail, [RegisteredSource.mk "s3" "s3-bkt-global.json"] = [] ++ tail) ∧
      (0 : Nat) = 0) := by
  refine ⟨rfl, List.Pairwise.nil, ?_⟩
  exact pm_reload_storage_invariant true "bkt" (fun v => .ok v)
    (.arr [.obj [("name", .str "global"), ("type", .str "s3"),
      ("parameters", .obj [("path", .str "global.json")])]])
    ⟨true, [], [], 0, 0⟩ ⟨true, [], [⟨"s3", "s3-bkt-global.json"⟩], 0, 0⟩ rfl List.Pairwise.nil

theorem consul_service_list_watchers_witness :
    (∀ n ∈ (["web"] : List String),
      n ∈ (onServiceListChange ⟨[], ["web"], [], false⟩ [("db", ["prod"])]).watchers) ∧
    (∀ n ∈ derivedNames [("db", ["prod"])],
      n ∈ (onServiceListChange ⟨[], ["web"], [], false⟩ [("db", ["prod"])]).watchers) ∧
    (onServiceListChange ⟨[], ["web"], [], false⟩ [("db", ["prod"])]).watchers.Nodup :=
  ⟨(consul_service_list_watchers ⟨[], ["web"], [], false⟩ [("db", ["prod"])]).1,
   (consul_service_list_watchers ⟨[], ["web"], [], false⟩ [("db", ["prod"])]).2.1,
   (consul_service_list_watchers ⟨[], ["web"], [], false⟩ [("db", ["prod"])]).2.2.1
     (by decide)⟩
